import Mathlib

/-!
Verification of `html_report/js/highlight.js`: a shallow embedding of the
hover-to-highlight controller, the team-color palette generator, the default
layout/config objects and the chart factory, together with theorems settling
the specification's claims about them.

JavaScript numbers are modelled as exact rationals, extended with the
non-finite values `NaN` and signed `Infinity` where the source can produce
them (the palette generator divides by `numTeams - 1`, which is `0/0 = NaN`
for one team).  `Math.round x` is `⌊x + 1/2⌋` (round half towards positive
infinity), which is exact for finite doubles at ties.
-/

/-- A JavaScript number: a finite value (modelled exactly as a rational),
`NaN`, or a signed infinity. -/
inductive JsNum where
  | num (q : ℚ)
  | nan
  | inf (pos : Bool)
deriving DecidableEq, Repr

/-- JavaScript division `a / b` of two finite numbers: `0 / 0` is `NaN`,
`a / 0` for `a ≠ 0` is a signed infinity, otherwise exact division. -/
def jsDivQ (a b : ℚ) : JsNum :=
  if b = 0 then
    if a = 0 then .nan else .inf (decide (0 < a))
  else .num (a / b)

/-- JavaScript multiplication of a finite literal by a number:
`NaN` propagates; `0 * Infinity` is `NaN`; a nonzero finite factor keeps an
infinity, flipping its sign when negative. -/
def jsMul (a : ℚ) : JsNum → JsNum
  | .num q => .num (a * q)
  | .nan => .nan
  | .inf p => if a = 0 then .nan else if 0 < a then .inf p else .inf (!p)

/-- JavaScript addition of a finite literal to a number: `NaN` propagates and
infinities absorb finite addends. -/
def jsAdd (a : ℚ) : JsNum → JsNum
  | .num q => .num (a + q)
  | .nan => .nan
  | .inf p => .inf p

/-- `Math.round`: `⌊x + 1/2⌋` on finite values, identity on `NaN` and the
infinities. -/
def jsRound : JsNum → JsNum
  | .num q => .num ((⌊q + 1/2⌋ : ℤ) : ℚ)
  | .nan => .nan
  | .inf p => .inf p

/-- JavaScript number-to-string coercion, restricted to the values this file
produces (integers after `Math.round`, `NaN`, infinities). -/
def jsNumToString : JsNum → String
  | .num q => if q.den = 1 then toString q.num else toString q
  | .nan => "NaN"
  | .inf true => "Infinity"
  | .inf false => "-Infinity"

/-- One loop iteration of `getTeamColors`: the interpolation ratio and the
three rounded channels for index `i` out of `numTeams`. -/
def teamColorChannels (numTeams i : ℕ) : JsNum × JsNum × JsNum :=
  let ratio := jsDivQ (i : ℚ) ((numTeams : ℚ) - 1)
  let r := jsRound (jsAdd 52 (jsMul (231 - 52) ratio))
  let g := jsRound (jsAdd 152 (jsMul (76 - 152) ratio))
  let b := jsRound (jsAdd 219 (jsMul (60 - 219) ratio))
  (r, g, b)

/-- Rendering of one palette entry:
`'rgb(' + r + ',' + g + ',' + b + ')'`. -/
def renderRGB : JsNum × JsNum × JsNum → String
  | (r, g, b) =>
    "rgb(" ++ jsNumToString r ++ "," ++ jsNumToString g ++ ","
      ++ jsNumToString b ++ ")"

/-- `getTeamColors(numTeams)` from `highlight.js`: for each `i` below
`numTeams`, interpolate from blue `(52,152,219)` to red `(231,76,60)` with
ratio `i / (numTeams - 1)` and push the rendered `rgb(...)` string. -/
def getTeamColors (numTeams : ℕ) : List String :=
  (List.range numTeams).map (fun i => renderRGB (teamColorChannels numTeams i))

/-- A decimal digit-string evaluator (used to transfer equalities of rendered
digit strings back to the numbers they print). -/
def parseNatData (l : List Char) : ℕ :=
  l.foldl (fun acc c => 10 * acc + (c.toNat - 48)) 0

/-- The specification's per-channel formula: the value round(a + (b−a)·i/(n−1))
interpolating channel endpoints `a` (at index 0) and `b` (at index n−1),
rounded to the nearest integer. -/
def lerpChannel (a b : ℤ) (i n : ℕ) : ℤ :=
  round ((a : ℚ) + ((b : ℚ) - (a : ℚ)) * (i : ℚ) / ((n : ℚ) - 1))

/-- A finite rgb color string built from three integer channels. -/
def rgbString (r g b : ℤ) : String :=
  "rgb(" ++ toString r ++ "," ++ toString g ++ "," ++ toString b ++ ")"

/-- The channel formula as pure integer division (`m` standing for `n − 1`):
round(a + (b−a)·i/m) = (2am + 2(b−a)i + m) / (2m) for m > 0.  Unlike
`lerpChannel` this form is directly computable, which lets single instances
be settled by evaluation. -/
def evalChannel (a b : ℤ) (i m : ℕ) : ℤ :=
  (2 * a * (m : ℤ) + 2 * (b - a) * (i : ℤ) + (m : ℤ)) / (2 * (m : ℤ))

/-! ### The Highlight Controller (`setupHighlight`)

The controller closes over one chart instance (`plotDiv`).  Its state is the
array of per-trace styles (`plotDiv.data`, mutated in place by
`Plotly.restyle`) together with the two snapshot arrays `originalOpacities`
and `originalLineWidths` held in the closure.  Hover and unhover events are
dispatched sequentially, so the handlers are modelled as state transitions
that also report the single combined `Plotly.restyle` call they issue. -/

/-- The `line` sub-object of a Plotly trace; `width` may be unset. -/
structure LineStyle where
  width : Option ℚ
deriving DecidableEq, Repr

/-- The style attributes of one Plotly trace that the controller reads or
writes: `opacity` (may be unset) and the `line` object (may be absent). -/
structure Trace where
  opacity : Option ℚ
  line : Option LineStyle
deriving DecidableEq, Repr

/-- The two parallel per-trace arrays passed to a single
`Plotly.restyle(plotDiv, {opacity: ..., line.width: ...})` call. -/
structure RestyleCall where
  opacity : List ℚ
  lineWidth : List ℚ
deriving DecidableEq, Repr

/-- The state closed over by `setupHighlight` for one chart: the chart's
traces and the lazily captured snapshot arrays. -/
structure HighlightState where
  traces : List Trace
  originalOpacities : List ℚ
  originalLineWidths : List ℚ
deriving DecidableEq, Repr

/-- JavaScript `v || d` on an optional number: `undefined`, and any falsy
number (`0`), give the default `d`. -/
def jsOr (v : Option ℚ) (d : ℚ) : ℚ :=
  match v with
  | some x => if x = 0 then d else x
  | none => d

/-- The snapshot loop body for opacities:
`originalOpacities.push(plotDiv.data[i].opacity || 1.0)`. -/
def captureOpacities (ts : List Trace) : List ℚ :=
  ts.map (fun t => jsOr t.opacity 1.0)

/-- The snapshot loop body for line widths: `plotDiv.data[i].line` present
gives `line.width || 2`, otherwise `2`. -/
def captureLineWidths (ts : List Trace) : List ℚ :=
  ts.map (fun t =>
    match t.line with
    | some l => jsOr l.width 2
    | none => 2)

/-- The effect of `Plotly.restyle` with parallel `opacity` and `line.width`
arrays: trace `i` receives `ops[i]` and `ws[i]` when present (a `line.width`
write materializes the `line` object); a trace beyond the end of an array
keeps its old attribute. -/
def applyRestyle : List Trace → List ℚ → List ℚ → List Trace
  | [], _, _ => []
  | t :: ts, ops, ws =>
    { opacity := match ops.head? with
        | some v => some v
        | none => t.opacity,
      line := match ws.head? with
        | some w => some { width := some w }
        | none => t.line } :: applyRestyle ts ops.tail ws.tail

/-- The `plotly_hover` handler, given the hovered `curveNumber`: capture the
snapshot if it is still empty, then emphasize index `curveNumber`
(opacity 1.0, width 4) and dim every other index (opacity 0.15, width 1.5),
in one combined restyle call. -/
def hoverStep (s : HighlightState) (curveNumber : ℕ) :
    HighlightState × RestyleCall :=
  let numTraces := s.traces.length
  let s1 := if s.originalOpacities.length = 0 then
      { s with originalOpacities := captureOpacities s.traces,
               originalLineWidths := captureLineWidths s.traces }
    else s
  let opacityUpdate := (List.range numTraces).map
    (fun i => if i = curveNumber then (1.0 : ℚ) else 0.15)
  let widthUpdate := (List.range numTraces).map
    (fun i => if i = curveNumber then (4 : ℚ) else 1.5)
  ({ s1 with traces := applyRestyle s1.traces opacityUpdate widthUpdate },
   { opacity := opacityUpdate, lineWidth := widthUpdate })

/-- The `plotly_unhover` handler: restore `originalOpacities[i] || 1.0` and
`originalLineWidths[i] || 2` for every current trace index, in one combined
restyle call. -/
def unhoverStep (s : HighlightState) : HighlightState × RestyleCall :=
  let numTraces := s.traces.length
  let opacityUpdate := (List.range numTraces).map
    (fun i => jsOr s.originalOpacities[i]? 1.0)
  let widthUpdate := (List.range numTraces).map
    (fun i => jsOr s.originalLineWidths[i]? 2)
  ({ s with traces := applyRestyle s.traces opacityUpdate widthUpdate },
   { opacity := opacityUpdate, lineWidth := widthUpdate })

/-- One pointer event delivered to the controller. -/
inductive HighlightEvent where
  | hover (curveNumber : ℕ)
  | unhover
deriving DecidableEq, Repr

/-- The state transition of one event (discarding the emitted restyle call). -/
def stepEvent (s : HighlightState) : HighlightEvent → HighlightState
  | .hover k => (hoverStep s k).1
  | .unhover => (unhoverStep s).1

/-- Run a sequence of pointer events from a starting state. -/
def runEvents (s : HighlightState) (evs : List HighlightEvent) : HighlightState :=
  evs.foldl stepEvent s

/-- The observable outcome of a `setupHighlight` call: the warnings logged
and the events subscribed on the plot element. -/
structure SetupResult where
  warnings : List String
  subscribedEvents : List String
deriving DecidableEq, Repr

/-- `setupHighlight(plotId)`: look the plot element up by id; when absent,
log a warning and return; otherwise subscribe the two handlers.  `dom` models
`document.getElementById` (with `none` for `null`). -/
def setupHighlight (dom : String → Option HighlightState) (plotId : String) :
    SetupResult :=
  match dom plotId with
  | none =>
    { warnings := ["Plot element not found: " ++ plotId],
      subscribedEvents := [] }
  | some _ =>
    { warnings := [],
      subscribedEvents := ["plotly_hover", "plotly_unhover"] }

/-- `setupAllHighlights(plotIds)`: `setupHighlight` on each id in order. -/
def setupAllHighlights (dom : String → Option HighlightState)
    (plotIds : List String) : List SetupResult :=
  plotIds.map (setupHighlight dom)

/-! ### The Chart Factory (`createTeamLineChart`) -/

/-- One record of `data.teams`. -/
structure Team where
  name : String
  y : List ℚ
  color : String
deriving Repr

/-- The `data` argument of `createTeamLineChart`. -/
structure ChartData where
  x : List ℚ
  teams : List Team
  xLabel : String
  yLabel : String
deriving Repr

/-- One trace built by `createTeamLineChart` (the fields of the object
literal returned by the `data.teams.map` callback). -/
structure TraceSpec where
  x : List ℚ
  y : List ℚ
  name : String
  type : String
  mode : String
  lineColor : String
  lineWidth : ℚ
  markerSize : ℚ
  hovertemplate : String
deriving Repr

/-- The `data.teams.map` callback of `createTeamLineChart`. -/
def mkTeamTrace (data : ChartData) (team : Team) : TraceSpec :=
  { x := data.x,
    y := team.y,
    name := team.name,
    type := "scatter",
    mode := "lines+markers",
    lineColor := team.color,
    lineWidth := 2,
    markerSize := 6,
    hovertemplate := "<b>" ++ team.name ++ "</b><br>"
      ++ data.xLabel ++ ": %\x7bx\x7d<br>"
      ++ data.yLabel ++ ": %\x7by:.1f\x7d<extra></extra>" }

/-- The `traces` array of `createTeamLineChart`. -/
def createTraces (data : ChartData) : List TraceSpec :=
  data.teams.map (mkTeamTrace data)

/-- A JavaScript value as far as the layout and config objects need:
strings, numbers, booleans, nested objects (ordered key/value fields) and
arrays of strings. -/
inductive JsValue where
  | str (s : String)
  | num (q : ℚ)
  | bool (b : Bool)
  | obj (fields : List (String × JsValue))
  | strList (elems : List String)

/-- A JavaScript object: its own ordered key/value pairs. -/
abbrev JsObject := List (String × JsValue)

/-- The `defaultLayout` object of `highlight.js`. -/
def defaultLayout : JsObject :=
  [("font", .obj [("family",
      .str "-apple-system, BlinkMacSystemFont, \x27Segoe UI\x27, Roboto, sans-serif")]),
   ("paper_bgcolor", .str "rgba(0,0,0,0)"),
   ("plot_bgcolor", .str "rgba(0,0,0,0)"),
   ("margin", .obj [("t", .num 50), ("r", .num 30), ("b", .num 50), ("l", .num 60)]),
   ("hovermode", .str "closest"),
   ("legend", .obj [("orientation", .str "v"), ("x", .num 1.02), ("y", .num 1),
      ("bgcolor", .str "rgba(255,255,255,0.9)"), ("bordercolor", .str "#ddd"),
      ("borderwidth", .num 1)])]

/-- The `defaultConfig` object of `highlight.js`. -/
def defaultConfig : JsObject :=
  [("responsive", .bool true),
   ("displayModeBar", .bool true),
   ("modeBarButtonsToRemove", .strList ["lasso2d", "select2d"]),
   ("displaylogo", .bool false)]

/-- One property assignment `o[k] = v` on an object: replace the value of an
existing own key in place, otherwise append the new key at the end. -/
def setKey : JsObject → String → JsValue → JsObject
  | [], k, v => [(k, v)]
  | (k0, v0) :: rest, k, v =>
    if k0 = k then (k0, v) :: rest else (k0, v0) :: setKey rest k v

/-- `Object.assign(target, src)`: assign each own key of `src` onto `target`
in order; only top-level keys are copied (a shallow merge). -/
def objAssign (target src : JsObject) : JsObject :=
  src.foldl (fun acc kv => setKey acc kv.1 kv.2) target

/-- Own-property lookup `o[k]` (first matching key). -/
def objGet (o : JsObject) (k : String) : Option JsValue :=
  List.lookup k o

/-- The `Plotly.newPlot(plotId, traces, fullLayout, defaultConfig)` call made
by `createTeamLineChart`; its thenable continuation runs
`setupHighlight(plotId)` after the render completes. -/
structure RenderCall where
  plotId : String
  traces : List TraceSpec
  layout : JsObject
  config : JsObject

/-- `createTeamLineChart(plotId, data, layout)`: build one trace per team
record, merge the `layout` argument over `defaultLayout` with
`Object.assign({}, defaultLayout, layout)`, and render with the default
config. -/
def createTeamLineChart (plotId : String) (data : ChartData)
    (layout : JsObject) : RenderCall :=
  { plotId := plotId,
    traces := createTraces data,
    layout := objAssign (objAssign [] defaultLayout) layout,
    config := defaultConfig }

/-! ### Concrete instances used by witnesses and counterexamples -/

/-- A trace with no explicit style attributes. -/
def plainTrace : Trace := { opacity := none, line := none }

/-- A freshly attached controller over a chart with three plain traces. -/
def threeTraceState : HighlightState :=
  { traces := [plainTrace, plainTrace, plainTrace],
    originalOpacities := [], originalLineWidths := [] }

/-- A trace whose opacity is explicitly `0` (fully transparent) before any
hover. -/
def zeroOpacityTrace : Trace := { opacity := some 0, line := some { width := some 3 } }

/-- A freshly attached controller over a chart whose single trace starts at
opacity `0`. -/
def zeroOpacityState : HighlightState :=
  { traces := [zeroOpacityTrace],
    originalOpacities := [], originalLineWidths := [] }

/-- A one-team chart data object for witnesses. -/
def sampleTeam : Team := { name := "Alpha", y := [1, 2], color := "rgb(52,152,219)" }

/-- A sample `data` argument for `createTeamLineChart`. -/
def sampleChartData : ChartData :=
  { x := [1, 2], teams := [sampleTeam], xLabel := "Week", yLabel := "Points" }

/-! ### Characterization of `getTeamColors` for `n ≥ 2` -/

theorem teamColorChannels_eq (n i : ℕ) (hn : 2 ≤ n) :
    teamColorChannels n i =
      (.num ((lerpChannel 52 231 i n : ℤ) : ℚ),
       .num ((lerpChannel 152 76 i n : ℤ) : ℚ),
       .num ((lerpChannel 219 60 i n : ℤ) : ℚ)) := by
  have h2 : (2 : ℚ) ≤ (n : ℚ) := by exact_mod_cast hn
  have hm : ((n : ℚ) - 1) ≠ 0 := by linarith
  simp only [teamColorChannels, jsDivQ, if_neg hm, jsMul, jsAdd, jsRound,
    lerpChannel, round_eq, mul_div_assoc]
  norm_num

theorem renderRGB_int (r g b : ℤ) :
    renderRGB (.num (r : ℚ), .num (g : ℚ), .num (b : ℚ)) = rgbString r g b := by
  simp [renderRGB, jsNumToString, rgbString, Rat.den_intCast, Rat.num_intCast]

theorem getTeamColors_eq_map (n : ℕ) (hn : 2 ≤ n) :
    getTeamColors n = (List.range n).map (fun i =>
      rgbString (lerpChannel 52 231 i n) (lerpChannel 152 76 i n)
        (lerpChannel 219 60 i n)) := by
  unfold getTeamColors
  refine List.map_congr_left (fun i _ => ?_)
  rw [teamColorChannels_eq n i hn, renderRGB_int]

theorem getTeamColors_getElem? (n i : ℕ) (hn : 2 ≤ n) (hi : i < n) :
    (getTeamColors n)[i]? = some
      (rgbString (lerpChannel 52 231 i n) (lerpChannel 152 76 i n)
        (lerpChannel 219 60 i n)) := by
  rw [getTeamColors_eq_map n hn]
  simp [List.getElem?_map, List.getElem?_range, hi]

theorem getTeamColors_length (n : ℕ) : (getTeamColors n).length = n := by
  simp [getTeamColors]

/-- Closed form of `lerpChannel` as integer division, for concrete
evaluation: with `m = n - 1 > 0`, round(a + (b−a)·i/m) is
`(2am + 2(b−a)i + m) / (2m)` (Euclidean division by a positive integer). -/
theorem lerpChannel_eval (a b : ℤ) (i n : ℕ) (hn : 2 ≤ n) :
    lerpChannel a b i n =
      (2 * a * ((n : ℤ) - 1) + 2 * (b - a) * (i : ℤ) + ((n : ℤ) - 1)) /
        (2 * ((n : ℤ) - 1)) := by
  have h1 : 1 ≤ n := le_trans (by norm_num) hn
  have hm : ((n : ℚ) - 1) ≠ 0 := by
    have : (2 : ℚ) ≤ (n : ℚ) := by exact_mod_cast hn
    linarith
  have hd : (2 * ((n : ℤ) - 1)) = ((2 * (n - 1) : ℕ) : ℤ) := by
    push_cast [Nat.cast_sub h1]; ring
  have hq : (a : ℚ) + ((b : ℚ) - (a : ℚ)) * (i : ℚ) / ((n : ℚ) - 1) + 1/2 =
      ((2 * a * ((n : ℤ) - 1) + 2 * (b - a) * (i : ℤ) + ((n : ℤ) - 1) : ℤ) : ℚ) /
        ((2 * (n - 1) : ℕ) : ℚ) := by
    have hcast : ((2 * (n - 1) : ℕ) : ℚ) = 2 * ((n : ℚ) - 1) := by
      push_cast [Nat.cast_sub h1]; ring
    rw [hcast]
    field_simp
    ring
  rw [lerpChannel, round_eq, hq, Rat.floor_intCast_div_natCast, hd]

theorem lerpChannel_eval_sub (a b : ℤ) (i n : ℕ) (hn : 2 ≤ n) :
    lerpChannel a b i n = evalChannel a b i (n - 1) := by
  have h1 : 1 ≤ n := le_trans (by norm_num) hn
  have hc : ((n - 1 : ℕ) : ℤ) = (n : ℤ) - 1 := by push_cast [Nat.cast_sub h1]; ring
  rw [lerpChannel_eval a b i n hn, evalChannel, hc]

theorem floor_int_add_half (z : ℤ) : ⌊(z : ℚ) + 1/2⌋ = z := by
  have h : ⌊(1/2 : ℚ)⌋ = 0 := Int.floor_eq_iff.mpr (by norm_num)
  rw [Int.floor_int_add, h, add_zero]

theorem lerpChannel_mono_incr (a b : ℤ) (i j n : ℕ) (hn : 2 ≤ n)
    (hab : a ≤ b) (hij : i ≤ j) :
    lerpChannel a b i n ≤ lerpChannel a b j n := by
  have hm : (0 : ℚ) < (n : ℚ) - 1 := by
    have : (2 : ℚ) ≤ (n : ℚ) := by exact_mod_cast hn
    linarith
  unfold lerpChannel
  rw [round_eq, round_eq]
  apply Int.floor_mono
  have hab' : (0 : ℚ) ≤ (b : ℚ) - (a : ℚ) := by
    have : (a : ℚ) ≤ (b : ℚ) := by exact_mod_cast hab
    linarith
  have hij' : (i : ℚ) ≤ (j : ℚ) := by exact_mod_cast hij
  have hmul : ((b : ℚ) - (a : ℚ)) * (i : ℚ) ≤ ((b : ℚ) - (a : ℚ)) * (j : ℚ) :=
    mul_le_mul_of_nonneg_left hij' hab'
  have := (div_le_div_iff_of_pos_right hm).mpr hmul
  linarith

theorem lerpChannel_anti_decr (a b : ℤ) (i j n : ℕ) (hn : 2 ≤ n)
    (hba : b ≤ a) (hij : i ≤ j) :
    lerpChannel a b j n ≤ lerpChannel a b i n := by
  have hm : (0 : ℚ) < (n : ℚ) - 1 := by
    have : (2 : ℚ) ≤ (n : ℚ) := by exact_mod_cast hn
    linarith
  unfold lerpChannel
  rw [round_eq, round_eq]
  apply Int.floor_mono
  have hba' : (b : ℚ) - (a : ℚ) ≤ 0 := by
    have : (b : ℚ) ≤ (a : ℚ) := by exact_mod_cast hba
    linarith
  have hij' : (i : ℚ) ≤ (j : ℚ) := by exact_mod_cast hij
  have hmul : ((b : ℚ) - (a : ℚ)) * (j : ℚ) ≤ ((b : ℚ) - (a : ℚ)) * (i : ℚ) :=
    mul_le_mul_of_nonpos_left hij' hba'
  have := (div_le_div_iff_of_pos_right hm).mpr hmul
  linarith

theorem lerpChannel_bounds_incr (a b : ℤ) (i n : ℕ) (hn : 2 ≤ n) (hi : i < n)
    (hab : a ≤ b) : a ≤ lerpChannel a b i n ∧ lerpChannel a b i n ≤ b := by
  have hm : (0 : ℚ) < (n : ℚ) - 1 := by
    have : (2 : ℚ) ≤ (n : ℚ) := by exact_mod_cast hn
    linarith
  have hiq : (i : ℚ) ≤ (n : ℚ) - 1 := by
    have : (i : ℚ) + 1 ≤ (n : ℚ) := by exact_mod_cast hi
    linarith
  have hab' : (0 : ℚ) ≤ (b : ℚ) - (a : ℚ) := by
    have : (a : ℚ) ≤ (b : ℚ) := by exact_mod_cast hab
    linarith
  have hlow : (0 : ℚ) ≤ ((b : ℚ) - (a : ℚ)) * (i : ℚ) / ((n : ℚ) - 1) :=
    div_nonneg (mul_nonneg hab' (by positivity)) (le_of_lt hm)
  have hhigh : ((b : ℚ) - (a : ℚ)) * (i : ℚ) / ((n : ℚ) - 1) ≤ (b : ℚ) - (a : ℚ) := by
    rw [div_le_iff₀ hm]
    calc ((b : ℚ) - (a : ℚ)) * (i : ℚ)
        ≤ ((b : ℚ) - (a : ℚ)) * ((n : ℚ) - 1) := mul_le_mul_of_nonneg_left hiq hab'
      _ = ((b : ℚ) - (a : ℚ)) * ((n : ℚ) - 1) := rfl
  constructor
  · have := Int.floor_mono (a := (a : ℚ) + 1/2)
      (b := (a : ℚ) + ((b : ℚ) - (a : ℚ)) * (i : ℚ) / ((n : ℚ) - 1) + 1/2)
      (by linarith)
    rw [floor_int_add_half] at this
    rw [lerpChannel, round_eq]
    exact this
  · have := Int.floor_mono
      (a := (a : ℚ) + ((b : ℚ) - (a : ℚ)) * (i : ℚ) / ((n : ℚ) - 1) + 1/2)
      (b := (b : ℚ) + 1/2) (by linarith)
    rw [floor_int_add_half] at this
    rw [lerpChannel, round_eq]
    exact this

theorem lerpChannel_bounds_decr (a b : ℤ) (i n : ℕ) (hn : 2 ≤ n) (hi : i < n)
    (hba : b ≤ a) : b ≤ lerpChannel a b i n ∧ lerpChannel a b i n ≤ a := by
  have hm : (0 : ℚ) < (n : ℚ) - 1 := by
    have : (2 : ℚ) ≤ (n : ℚ) := by exact_mod_cast hn
    linarith
  have hiq : (i : ℚ) ≤ (n : ℚ) - 1 := by
    have : (i : ℚ) + 1 ≤ (n : ℚ) := by exact_mod_cast hi
    linarith
  have hba' : (b : ℚ) - (a : ℚ) ≤ 0 := by
    have : (b : ℚ) ≤ (a : ℚ) := by exact_mod_cast hba
    linarith
  have hhigh : ((b : ℚ) - (a : ℚ)) * (i : ℚ) / ((n : ℚ) - 1) ≤ 0 :=
    div_nonpos_of_nonpos_of_nonneg (mul_nonpos_of_nonpos_of_nonneg hba' (by positivity))
      (le_of_lt hm)
  have hlow : (b : ℚ) - (a : ℚ) ≤ ((b : ℚ) - (a : ℚ)) * (i : ℚ) / ((n : ℚ) - 1) := by
    rw [le_div_iff₀ hm]
    calc ((b : ℚ) - (a : ℚ)) * ((n : ℚ) - 1)
        ≤ ((b : ℚ) - (a : ℚ)) * (i : ℚ) := mul_le_mul_of_nonpos_left hiq hba'
      _ = ((b : ℚ) - (a : ℚ)) * (i : ℚ) := rfl
  constructor
  · have := Int.floor_mono (a := (b : ℚ) + 1/2)
      (b := (a : ℚ) + ((b : ℚ) - (a : ℚ)) * (i : ℚ) / ((n : ℚ) - 1) + 1/2)
      (by linarith)
    rw [floor_int_add_half] at this
    rw [lerpChannel, round_eq]
    exact this
  · have := Int.floor_mono
      (a := (a : ℚ) + ((b : ℚ) - (a : ℚ)) * (i : ℚ) / ((n : ℚ) - 1) + 1/2)
      (b := (a : ℚ) + 1/2) (by linarith)
    rw [floor_int_add_half] at this
    rw [lerpChannel, round_eq]
    exact this

theorem lerpChannel_strict_anti (a b : ℤ) (i j n : ℕ) (hn : 2 ≤ n)
    (hd : (n : ℤ) - 1 ≤ a - b) (hij : i < j) :
    lerpChannel a b j n < lerpChannel a b i n := by
  have hm : (0 : ℚ) < (n : ℚ) - 1 := by
    have : (2 : ℚ) ≤ (n : ℚ) := by exact_mod_cast hn
    linarith
  have hdq : (n : ℚ) - 1 ≤ (a : ℚ) - (b : ℚ) := by exact_mod_cast hd
  have hji : (1 : ℚ) ≤ (j : ℚ) - (i : ℚ) := by
    have : (i : ℚ) + 1 ≤ (j : ℚ) := by exact_mod_cast hij
    linarith
  have hstep : (1 : ℚ) ≤ ((a : ℚ) - (b : ℚ)) * ((j : ℚ) - (i : ℚ)) / ((n : ℚ) - 1) := by
    rw [le_div_iff₀ hm]
    calc (1 : ℚ) * ((n : ℚ) - 1) = (n : ℚ) - 1 := by ring
      _ ≤ ((a : ℚ) - (b : ℚ)) * 1 := by linarith
      _ ≤ ((a : ℚ) - (b : ℚ)) * ((j : ℚ) - (i : ℚ)) :=
          mul_le_mul_of_nonneg_left hji (by linarith)
  have hkey : (a : ℚ) + ((b : ℚ) - (a : ℚ)) * (j : ℚ) / ((n : ℚ) - 1) + 1/2 ≤
      ((a : ℚ) + ((b : ℚ) - (a : ℚ)) * (i : ℚ) / ((n : ℚ) - 1) + 1/2) - ((1 : ℤ) : ℚ) := by
    have hsplit : ((b : ℚ) - (a : ℚ)) * (i : ℚ) / ((n : ℚ) - 1) -
        ((b : ℚ) - (a : ℚ)) * (j : ℚ) / ((n : ℚ) - 1) =
        ((a : ℚ) - (b : ℚ)) * ((j : ℚ) - (i : ℚ)) / ((n : ℚ) - 1) := by
      ring
    push_cast
    linarith [hstep, hsplit]
  have hfl := Int.floor_mono hkey
  rw [Int.floor_sub_int] at hfl
  unfold lerpChannel
  rw [round_eq, round_eq]
  omega

theorem lerpChannel_strict_mono (a b : ℤ) (i j n : ℕ) (hn : 2 ≤ n)
    (hd : (n : ℤ) - 1 ≤ b - a) (hij : i < j) :
    lerpChannel a b i n < lerpChannel a b j n := by
  have hm : (0 : ℚ) < (n : ℚ) - 1 := by
    have : (2 : ℚ) ≤ (n : ℚ) := by exact_mod_cast hn
    linarith
  have hdq : (n : ℚ) - 1 ≤ (b : ℚ) - (a : ℚ) := by exact_mod_cast hd
  have hji : (1 : ℚ) ≤ (j : ℚ) - (i : ℚ) := by
    have : (i : ℚ) + 1 ≤ (j : ℚ) := by exact_mod_cast hij
    linarith
  have hstep : (1 : ℚ) ≤ ((b : ℚ) - (a : ℚ)) * ((j : ℚ) - (i : ℚ)) / ((n : ℚ) - 1) := by
    rw [le_div_iff₀ hm]
    calc (1 : ℚ) * ((n : ℚ) - 1) = (n : ℚ) - 1 := by ring
      _ ≤ ((b : ℚ) - (a : ℚ)) * 1 := by linarith
      _ ≤ ((b : ℚ) - (a : ℚ)) * ((j : ℚ) - (i : ℚ)) :=
          mul_le_mul_of_nonneg_left hji (by linarith)
  have hkey : (a : ℚ) + ((b : ℚ) - (a : ℚ)) * (i : ℚ) / ((n : ℚ) - 1) + 1/2 ≤
      ((a : ℚ) + ((b : ℚ) - (a : ℚ)) * (j : ℚ) / ((n : ℚ) - 1) + 1/2) - ((1 : ℤ) : ℚ) := by
    have hsplit : ((b : ℚ) - (a : ℚ)) * (j : ℚ) / ((n : ℚ) - 1) -
        ((b : ℚ) - (a : ℚ)) * (i : ℚ) / ((n : ℚ) - 1) =
        ((b : ℚ) - (a : ℚ)) * ((j : ℚ) - (i : ℚ)) / ((n : ℚ) - 1) := by
      ring
    push_cast
    linarith [hstep, hsplit]
  have hfl := Int.floor_mono hkey
  rw [Int.floor_sub_int] at hfl
  unfold lerpChannel
  rw [round_eq, round_eq]
  omega

theorem lerpChannel_zero (a b : ℤ) (n : ℕ) : lerpChannel a b 0 n = a := by
  unfold lerpChannel
  norm_num [round_intCast]

theorem lerpChannel_last (a b : ℤ) (n : ℕ) (hn : 2 ≤ n) :
    lerpChannel a b (n - 1) n = b := by
  have h1 : 1 ≤ n := le_trans (by norm_num) hn
  have hm : ((n : ℚ) - 1) ≠ 0 := by
    have : (2 : ℚ) ≤ (n : ℚ) := by exact_mod_cast hn
    linarith
  have hc : ((n - 1 : ℕ) : ℚ) = (n : ℚ) - 1 := by
    push_cast [Nat.cast_sub h1]
    ring
  unfold lerpChannel
  rw [hc, mul_div_assoc, div_self hm, mul_one]
  have hab : (a : ℚ) + ((b : ℚ) - (a : ℚ)) = ((b : ℤ) : ℚ) := by ring
  rw [hab, round_intCast]

/-! ### Distinctness of rendered color strings

Two rendered `rgb(r,g,b)` strings with different `b` channels are different
strings: the decimal digit expansions contain no comma, so the comma
positions determine the three channel substrings uniquely, and a digit
string determines its number. -/

set_option maxRecDepth 10000 in
theorem natRepr_no_comma : ∀ k, k < 256 → ',' ∉ (Nat.repr k).data := by decide

set_option maxRecDepth 10000 in
theorem parseNatData_repr : ∀ k, k < 256 → parseNatData (Nat.repr k).data = k := by
  decide

theorem intToString_nonneg (z : ℤ) (h : 0 ≤ z) : toString z = Nat.repr z.toNat := by
  cases z with
  | ofNat m => rfl
  | negSucc m => exact absurd h (Int.negSucc_lt_zero m).not_le

theorem append_cons_inj {α : Type} (c : α) :
    ∀ (xs ys x2 y2 : List α), c ∉ xs → c ∉ ys →
      xs ++ c :: x2 = ys ++ c :: y2 → xs = ys ∧ x2 = y2 := by
  intro xs
  induction xs with
  | nil =>
    intro ys x2 y2 _ hys h
    cases ys with
    | nil => simpa using h
    | cons y ys' =>
      simp only [List.nil_append, List.cons_append, List.cons.injEq] at h
      exact absurd (h.1 ▸ List.mem_cons_self y ys') hys
  | cons x xs ih =>
    intro ys x2 y2 hxs hys h
    cases ys with
    | nil =>
      simp only [List.cons_append, List.nil_append, List.cons.injEq] at h
      exact absurd (h.1 ▸ List.mem_cons_self x xs) hxs
    | cons y ys' =>
      simp only [List.cons_append, List.cons.injEq] at h
      have hxs' : c ∉ xs := fun hc => hxs (List.mem_cons_of_mem x hc)
      have hys' : c ∉ ys' := fun hc => hys (List.mem_cons_of_mem y hc)
      obtain ⟨h1, h2⟩ := ih ys' x2 y2 hxs' hys' h.2
      exact ⟨by rw [h.1, h1], h2⟩

theorem rgbString_inj {r1 g1 b1 r2 g2 b2 : ℤ}
    (hr1 : 0 ≤ r1) (hr1' : r1 < 256) (hg1 : 0 ≤ g1) (hg1' : g1 < 256)
    (hb1 : 0 ≤ b1) (hb1' : b1 < 256)
    (hr2 : 0 ≤ r2) (hr2' : r2 < 256) (hg2 : 0 ≤ g2) (hg2' : g2 < 256)
    (hb2 : 0 ≤ b2) (hb2' : b2 < 256)
    (h : rgbString r1 g1 b1 = rgbString r2 g2 b2) :
    r1 = r2 ∧ g1 = g2 ∧ b1 = b2 := by
  have br1 : r1.toNat < 256 := by omega
  have bg1 : g1.toNat < 256 := by omega
  have bb1 : b1.toNat < 256 := by omega
  have br2 : r2.toNat < 256 := by omega
  have bg2 : g2.toNat < 256 := by omega
  have bb2 : b2.toNat < 256 := by omega
  rw [rgbString, rgbString, intToString_nonneg r1 hr1, intToString_nonneg g1 hg1,
    intToString_nonneg b1 hb1, intToString_nonneg r2 hr2, intToString_nonneg g2 hg2,
    intToString_nonneg b2 hb2] at h
  have hd := congrArg String.data h
  simp only [String.data_append] at hd
  have hshape : ∀ R G B : List Char,
      ['r', 'g', 'b', '('] ++ R ++ [','] ++ G ++ [','] ++ B ++ [')'] =
        (['r', 'g', 'b', '('] ++ R) ++ ',' :: (G ++ ',' :: (B ++ [')'])) := by
    intro R G B
    simp [List.append_assoc]
  rw [hshape, hshape] at hd
  have hnc1 : ',' ∉ ['r', 'g', 'b', '('] ++ (Nat.repr r1.toNat).data := by
    intro hmem
    rcases List.mem_append.mp hmem with hmem | hmem
    · simp at hmem
    · exact natRepr_no_comma r1.toNat br1 hmem
  have hnc2 : ',' ∉ ['r', 'g', 'b', '('] ++ (Nat.repr r2.toNat).data := by
    intro hmem
    rcases List.mem_append.mp hmem with hmem | hmem
    · simp at hmem
    · exact natRepr_no_comma r2.toNat br2 hmem
  obtain ⟨hd1, hd2⟩ := append_cons_inj ',' _ _ _ _ hnc1 hnc2 hd
  obtain ⟨hg, hd3⟩ := append_cons_inj ',' _ _ _ _
    (natRepr_no_comma g1.toNat bg1) (natRepr_no_comma g2.toNat bg2) hd2
  have hr := List.append_cancel_left hd1
  have hb := List.append_cancel_right hd3
  have hparse1 := congrArg parseNatData hr
  have hparse2 := congrArg parseNatData hg
  have hparse3 := congrArg parseNatData hb
  rw [parseNatData_repr r1.toNat br1, parseNatData_repr r2.toNat br2] at hparse1
  rw [parseNatData_repr g1.toNat bg1, parseNatData_repr g2.toNat bg2] at hparse2
  rw [parseNatData_repr b1.toNat bb1, parseNatData_repr b2.toNat bb2] at hparse3
  refine ⟨by omega, by omega, by omega⟩

set_option maxRecDepth 10000 in
theorem adjacent_channels_ne_181 : ∀ i, i < 180 →
    ¬ (evalChannel 52 231 i 180 = evalChannel 52 231 (i + 1) 180 ∧
       evalChannel 152 76 i 180 = evalChannel 152 76 (i + 1) 180 ∧
       evalChannel 219 60 i 180 = evalChannel 219 60 (i + 1) 180) := by
  decide

/-- The palette entries are pairwise distinct for every 2 ≤ n ≤ 181.  For
n ≤ 180 the R channel step 179/(n−1) is at least one rounding unit, so R is
strictly increasing; for n = 181 the 180 adjacent channel triples are checked
to differ by evaluation, and monotonicity squeezes any equal pair of entries
into an equal adjacent pair. -/
theorem getTeamColors_pairwise (n : ℕ) (hn : 2 ≤ n) (h181 : n ≤ 181) :
    (getTeamColors n).Pairwise (fun c1 c2 => c1 ≠ c2) := by
  rw [getTeamColors_eq_map n hn, List.pairwise_iff_getElem]
  intro i j hi hj hij
  simp only [List.getElem_map, List.getElem_range, List.length_map,
    List.length_range] at hi hj ⊢
  intro heq
  have hi' : i < n := by simpa using hi
  have hj' : j < n := by simpa using hj
  have hrb1 := lerpChannel_bounds_incr 52 231 i n hn hi' (by norm_num)
  have hgb1 := lerpChannel_bounds_decr 152 76 i n hn hi' (by norm_num)
  have hbb1 := lerpChannel_bounds_decr 219 60 i n hn hi' (by norm_num)
  have hrb2 := lerpChannel_bounds_incr 52 231 j n hn hj' (by norm_num)
  have hgb2 := lerpChannel_bounds_decr 152 76 j n hn hj' (by norm_num)
  have hbb2 := lerpChannel_bounds_decr 219 60 j n hn hj' (by norm_num)
  have hchan := rgbString_inj (by omega) (by omega) (by omega) (by omega) (by omega)
    (by omega) (by omega) (by omega) (by omega) (by omega) (by omega) (by omega) heq
  by_cases h180 : n ≤ 180
  · have hlt := lerpChannel_strict_mono 52 231 i j n hn (by omega) hij
    omega
  · have hn181 : n = 181 := by omega
    subst hn181
    have hij1 : i + 1 ≤ j := hij
    have hR1 : lerpChannel 52 231 i 181 = lerpChannel 52 231 (i + 1) 181 := by
      have ha := lerpChannel_mono_incr 52 231 i (i + 1) 181 (by norm_num) (by norm_num)
        (by omega)
      have hb := lerpChannel_mono_incr 52 231 (i + 1) j 181 (by norm_num) (by norm_num)
        hij1
      omega
    have hG1 : lerpChannel 152 76 i 181 = lerpChannel 152 76 (i + 1) 181 := by
      have ha := lerpChannel_anti_decr 152 76 i (i + 1) 181 (by norm_num) (by norm_num)
        (by omega)
      have hb := lerpChannel_anti_decr 152 76 (i + 1) j 181 (by norm_num) (by norm_num)
        hij1
      omega
    have hB1 : lerpChannel 219 60 i 181 = lerpChannel 219 60 (i + 1) 181 := by
      have ha := lerpChannel_anti_decr 219 60 i (i + 1) 181 (by norm_num) (by norm_num)
        (by omega)
      have hb := lerpChannel_anti_decr 219 60 (i + 1) j 181 (by norm_num) (by norm_num)
        hij1
      omega
    apply adjacent_channels_ne_181 i (by omega)
    rw [lerpChannel_eval_sub 52 231 i 181 (by norm_num),
      lerpChannel_eval_sub 52 231 (i + 1) 181 (by norm_num)] at hR1
    rw [lerpChannel_eval_sub 152 76 i 181 (by norm_num),
      lerpChannel_eval_sub 152 76 (i + 1) 181 (by norm_num)] at hG1
    rw [lerpChannel_eval_sub 219 60 i 181 (by norm_num),
      lerpChannel_eval_sub 219 60 (i + 1) 181 (by norm_num)] at hB1
    exact ⟨hR1, hG1, hB1⟩

/-! ### Claims about the Palette Generator -/

/-- Claim C3 (code bug): the specification states that palette(1) returns the
start color rgb(52,152,219) with the division by n−1 never evaluated, but the
source has no special case for one team: the loop body computes
ratio = 0/(1−1) = 0/0 = NaN, NaN propagates through every channel, and the
single returned color is the string rgb(NaN,NaN,NaN). -/
theorem getTeamColors_one_is_nan : getTeamColors 1 = ["rgb(NaN,NaN,NaN)"] := by
  norm_num [getTeamColors, teamColorChannels, jsDivQ, jsMul, jsAdd, jsRound,
    renderRGB, jsNumToString, List.range_succ]
  rfl

/-- Claim C10: palette(0), outside the stated domain n ≥ 1, returns the empty
sequence: the generation loop body never runs, so no interpolation ratio is
evaluated and no error is raised. -/
theorem getTeamColors_zero_empty : getTeamColors 0 = [] := rfl

/-- Claim C4: for every n ≥ 2, palette(n) has exactly n color strings; the
entry at each index i is the rendered triple of channels
round(start + (end − start) · i/(n−1)) for start (52,152,219) and
end (231,76,60); the first entry is exactly rgb(52,152,219) and the last is
exactly rgb(231,76,60). -/
theorem getTeamColors_linear_interpolation (n : ℕ) (hn : 2 ≤ n) :
    (getTeamColors n).length = n ∧
    (∀ i, i < n → (getTeamColors n)[i]? =
      some (rgbString (lerpChannel 52 231 i n) (lerpChannel 152 76 i n)
        (lerpChannel 219 60 i n))) ∧
    (getTeamColors n)[0]? = some "rgb(52,152,219)" ∧
    (getTeamColors n)[n - 1]? = some "rgb(231,76,60)" := by
  refine ⟨getTeamColors_length n, fun i hi => getTeamColors_getElem? n i hn hi, ?_, ?_⟩
  · rw [getTeamColors_getElem? n 0 hn (by omega),
      lerpChannel_zero 52 231 n, lerpChannel_zero 152 76 n, lerpChannel_zero 219 60 n]
    rfl
  · rw [getTeamColors_getElem? n (n - 1) hn (by omega),
      lerpChannel_last 52 231 n hn, lerpChannel_last 152 76 n hn,
      lerpChannel_last 219 60 n hn]
    rfl

/-- Witness for C4 at n = 3. -/
theorem getTeamColors_linear_interpolation_witness :
    2 ≤ 3 ∧
    ((getTeamColors 3).length = 3 ∧
      (∀ i, i < 3 → (getTeamColors 3)[i]? =
        some (rgbString (lerpChannel 52 231 i 3) (lerpChannel 152 76 i 3)
          (lerpChannel 219 60 i 3))) ∧
      (getTeamColors 3)[0]? = some "rgb(52,152,219)" ∧
      (getTeamColors 3)[3 - 1]? = some "rgb(231,76,60)") :=
  ⟨by norm_num, getTeamColors_linear_interpolation 3 (by norm_num)⟩

/-- Counterexample to Claim C5 as stated: for n = 182 the returned colors are
not pairwise distinct — the entries at indexes 45 and 46 are both the string
rgb(97,133,179).  (182 is the smallest such count: distinctness is proved
below for every 2 ≤ n ≤ 181.) -/
theorem getTeamColors_duplicate_color :
    (45 : ℕ) ≠ 46 ∧
    (getTeamColors 182)[45]? = some "rgb(97,133,179)" ∧
    (getTeamColors 182)[46]? = some "rgb(97,133,179)" := by
  refine ⟨by norm_num, ?_, ?_⟩
  · rw [getTeamColors_getElem? 182 45 (by norm_num) (by norm_num),
      lerpChannel_eval 52 231 45 182 (by norm_num),
      lerpChannel_eval 152 76 45 182 (by norm_num),
      lerpChannel_eval 219 60 45 182 (by norm_num)]
    norm_num [rgbString]
    rfl
  · rw [getTeamColors_getElem? 182 46 (by norm_num) (by norm_num),
      lerpChannel_eval 52 231 46 182 (by norm_num),
      lerpChannel_eval 152 76 46 182 (by norm_num),
      lerpChannel_eval 219 60 46 182 (by norm_num)]
    norm_num [rgbString]
    rfl

/-- Claim C5 as amended: for every n ≥ 2 the palette entries are the rendered
interpolated channel triples, and the interpolation is monotonic across the
sequence (R non-decreasing, G and B non-increasing); the n colors are
pairwise distinct for every 2 ≤ n ≤ 181 — distinctness first fails at
n = 182, where indexes 45 and 46 round to the same color (see the
counterexample theorem). -/
theorem getTeamColors_monotone_and_bounded_distinct (n : ℕ) (hn : 2 ≤ n) :
    (∀ i, i < n → (getTeamColors n)[i]? =
      some (rgbString (lerpChannel 52 231 i n) (lerpChannel 152 76 i n)
        (lerpChannel 219 60 i n))) ∧
    (∀ i j, i ≤ j →
      lerpChannel 52 231 i n ≤ lerpChannel 52 231 j n ∧
      lerpChannel 152 76 j n ≤ lerpChannel 152 76 i n ∧
      lerpChannel 219 60 j n ≤ lerpChannel 219 60 i n) ∧
    (n ≤ 181 → (getTeamColors n).Pairwise (fun c1 c2 => c1 ≠ c2)) :=
  ⟨fun i hi => getTeamColors_getElem? n i hn hi,
   fun i j hij =>
     ⟨lerpChannel_mono_incr 52 231 i j n hn (by norm_num) hij,
      lerpChannel_anti_decr 152 76 i j n hn (by norm_num) hij,
      lerpChannel_anti_decr 219 60 i j n hn (by norm_num) hij⟩,
   fun h181 => getTeamColors_pairwise n hn h181⟩

/-- Witness for the amended C5 at n = 10 (the count the comments mention). -/
theorem getTeamColors_monotone_and_bounded_distinct_witness :
    2 ≤ 10 ∧
    ((∀ i, i < 10 → (getTeamColors 10)[i]? =
      some (rgbString (lerpChannel 52 231 i 10) (lerpChannel 152 76 i 10)
        (lerpChannel 219 60 i 10))) ∧
    (∀ i j, i ≤ j →
      lerpChannel 52 231 i 10 ≤ lerpChannel 52 231 j 10 ∧
      lerpChannel 152 76 j 10 ≤ lerpChannel 152 76 i 10 ∧
      lerpChannel 219 60 j 10 ≤ lerpChannel 219 60 i 10) ∧
    (10 ≤ 181 → (getTeamColors 10).Pairwise (fun c1 c2 => c1 ≠ c2))) :=
  ⟨by norm_num, getTeamColors_monotone_and_bounded_distinct 10 (by norm_num)⟩

/-! ### The Highlight Controller: snapshot and restyle lemmas -/

theorem applyRestyle_length (ts : List Trace) (ops ws : List ℚ) :
    (applyRestyle ts ops ws).length = ts.length := by
  induction ts generalizing ops ws with
  | nil => rfl
  | cons t ts ih => simp [applyRestyle, ih]

theorem captureOpacities_length (ts : List Trace) :
    (captureOpacities ts).length = ts.length := by
  simp [captureOpacities]

theorem captureLineWidths_length (ts : List Trace) :
    (captureLineWidths ts).length = ts.length := by
  simp [captureLineWidths]

theorem jsOr_ne_zero (v : Option ℚ) (d : ℚ) (hd : d ≠ 0) : jsOr v d ≠ 0 := by
  rcases v with _ | x
  · simpa [jsOr] using hd
  · simp only [jsOr]
    split
    · exact hd
    · assumption

theorem captureOpacities_ne_zero (ts : List Trace) :
    ∀ x ∈ captureOpacities ts, x ≠ 0 := by
  intro x hx
  simp only [captureOpacities, List.mem_map] at hx
  obtain ⟨t, -, rfl⟩ := hx
  exact jsOr_ne_zero t.opacity 1.0 (by norm_num)

theorem captureLineWidths_ne_zero (ts : List Trace) :
    ∀ x ∈ captureLineWidths ts, x ≠ 0 := by
  intro x hx
  simp only [captureLineWidths, List.mem_map] at hx
  obtain ⟨t, -, rfl⟩ := hx
  rcases t.line with _ | l
  · norm_num
  · exact jsOr_ne_zero l.width 2 (by norm_num)

/-- Reading every index of a list back through the `arr[i] || d` fallback
reproduces the list, provided no stored entry is falsy. -/
theorem restore_map (l : List ℚ) (d : ℚ) (h : ∀ x ∈ l, x ≠ 0) :
    (List.range l.length).map (fun i => jsOr l[i]? d) = l := by
  apply List.ext_getElem
  · simp
  · intro i h1 h2
    simp only [List.getElem_map, List.getElem_range]
    rw [List.getElem?_eq_getElem h2]
    simp only [jsOr]
    rw [if_neg (h l[i] (List.getElem_mem h2))]

/-- Once the snapshot arrays hold `op`/`w` (with lengths matching the trace
count), any further event sequence leaves them untouched and preserves the
trace count. -/
theorem runEvents_preserves (op w : List ℚ) (n0 : ℕ)
    (hopn : op.length = n0) (hwn : w.length = n0) :
    ∀ (evs : List HighlightEvent) (s : HighlightState),
      s.originalOpacities = op → s.originalLineWidths = w → s.traces.length = n0 →
      (runEvents s evs).originalOpacities = op ∧
      (runEvents s evs).originalLineWidths = w ∧
      (runEvents s evs).traces.length = n0 := by
  intro evs
  induction evs with
  | nil =>
    intro s h1 h2 h3
    exact ⟨h1, h2, h3⟩
  | cons e evs ih =>
    intro s h1 h2 h3
    have hrun : runEvents s (e :: evs) = runEvents (stepEvent s e) evs := rfl
    have hstep : (stepEvent s e).originalOpacities = op ∧
        (stepEvent s e).originalLineWidths = w ∧
        (stepEvent s e).traces.length = n0 := by
      cases e with
      | hover k =>
        by_cases hemp : s.originalOpacities.length = 0
        · have hopnil : op = [] := by
            rw [← h1]
            exact List.length_eq_zero.mp hemp
          have hn0 : n0 = 0 := by
            rw [← hopn, hopnil]
            rfl
          have htr : s.traces = [] := List.length_eq_zero.mp (by rw [h3]; exact hn0)
          have hwnil : w = [] := List.length_eq_zero.mp (by rw [hwn]; exact hn0)
          simp [stepEvent, hoverStep, hemp, htr, hopnil, hwnil,
            captureOpacities, captureLineWidths, applyRestyle, hn0]
        · have hopne : ¬ op = [] := by
            rw [← h1]
            simpa [List.length_eq_zero] using hemp
          simp [stepEvent, hoverStep, hemp, hopne, h1, h2, applyRestyle_length, h3]
      | unhover =>
        simp [stepEvent, unhoverStep, h1, h2, applyRestyle_length, h3]
    rw [hrun]
    exact ih (stepEvent s e) hstep.1 hstep.2.1 hstep.2.2

/-! ### Claims about the Highlight Controller -/

/-- Claim C1: for a chart with n traces and a hovered index k < n, the hover
handler issues one combined restyle call whose opacity vector has length n
with 1.0 at k and 0.15 elsewhere, and whose line-width vector has length n
with 4 at k and 1.5 elsewhere; in particular for 3 traces and hovered
index 1 the vectors are [0.15, 1.0, 0.15] and [1.5, 4, 1.5]. -/
theorem hover_emphasizes_hovered_dims_rest (s : HighlightState) (k : ℕ)
    (hk : k < s.traces.length) :
    (hoverStep s k).2.opacity.length = s.traces.length ∧
    (hoverStep s k).2.lineWidth.length = s.traces.length ∧
    (hoverStep s k).2.opacity[k]? = some 1.0 ∧
    (hoverStep s k).2.lineWidth[k]? = some 4 ∧
    (∀ i, i < s.traces.length → i ≠ k →
      (hoverStep s k).2.opacity[i]? = some 0.15 ∧
      (hoverStep s k).2.lineWidth[i]? = some 1.5) ∧
    (hoverStep threeTraceState 1).2.opacity = [0.15, 1.0, 0.15] ∧
    (hoverStep threeTraceState 1).2.lineWidth = [1.5, 4, 1.5] := by
  refine ⟨by simp [hoverStep], by simp [hoverStep], ?_, ?_, ?_, by rfl, by rfl⟩
  · simp [hoverStep, List.getElem?_map, List.getElem?_range, hk]
  · simp [hoverStep, List.getElem?_map, List.getElem?_range, hk]
  · intro i hi hne
    constructor
    · simp [hoverStep, List.getElem?_map, List.getElem?_range, hi, hne]
    · simp [hoverStep, List.getElem?_map, List.getElem?_range, hi, hne]

/-- Witness for C1: hovering index 1 of the three-trace chart. -/
theorem hover_emphasizes_hovered_dims_rest_witness :
    1 < threeTraceState.traces.length ∧
    ((hoverStep threeTraceState 1).2.opacity.length = threeTraceState.traces.length ∧
    (hoverStep threeTraceState 1).2.lineWidth.length = threeTraceState.traces.length ∧
    (hoverStep threeTraceState 1).2.opacity[1]? = some (1.0 : ℚ) ∧
    (hoverStep threeTraceState 1).2.lineWidth[1]? = some (4 : ℚ) ∧
    (∀ i, i < threeTraceState.traces.length → i ≠ 1 →
      (hoverStep threeTraceState 1).2.opacity[i]? = some (0.15 : ℚ) ∧
      (hoverStep threeTraceState 1).2.lineWidth[i]? = some (1.5 : ℚ)) ∧
    (hoverStep threeTraceState 1).2.opacity = [0.15, 1.0, 0.15] ∧
    (hoverStep threeTraceState 1).2.lineWidth = [1.5, 4, 1.5]) :=
  ⟨by decide, hover_emphasizes_hovered_dims_rest threeTraceState 1 (by decide)⟩

/-- Counterexample to Claim C2 as stated: a series whose opacity was
explicitly 0 before the first hover is restored to 1.0, not to its
pre-hover value, because the code restores with `originalOpacities[i] || 1.0`
and already captured `opacity || 1.0`, both of which treat the set-but-falsy
value 0 as absent. -/
theorem unhover_keeps_zero_opacity_dropped :
    zeroOpacityState.traces.map (fun t => t.opacity) = [some 0] ∧
    (unhoverStep (runEvents zeroOpacityState [.hover 0])).2.opacity = [1.0] ∧
    (1.0 : ℚ) ≠ 0 := by
  refine ⟨rfl, ?_, by norm_num⟩
  norm_num [runEvents, stepEvent, hoverStep, unhoverStep, zeroOpacityState,
    zeroOpacityTrace, applyRestyle, captureOpacities, captureLineWidths, jsOr,
    List.range_succ]

/-- Claim C2 as amended: after one or more hover events followed by an
unhover, the restyle vectors applied by the unhover handler equal the
captured Style Snapshot — the per-series values immediately before the first
hover, except that an unset or zero opacity is recorded as the default 1.0
and an absent line object or unset or zero width as the default 2 —
regardless of how many hover/unhover cycles occurred in between. -/
theorem unhover_restores_snapshot (s0 : HighlightState)
    (hop : s0.originalOpacities = []) (_hw : s0.originalLineWidths = [])
    (k : ℕ) (evs : List HighlightEvent) :
    (unhoverStep (runEvents s0 (.hover k :: evs))).2.opacity =
      captureOpacities s0.traces ∧
    (unhoverStep (runEvents s0 (.hover k :: evs))).2.lineWidth =
      captureLineWidths s0.traces := by
  have hrun0 : runEvents s0 (.hover k :: evs) = runEvents (stepEvent s0 (.hover k)) evs := rfl
  have hstep : (stepEvent s0 (.hover k)).originalOpacities = captureOpacities s0.traces ∧
      (stepEvent s0 (.hover k)).originalLineWidths = captureLineWidths s0.traces ∧
      (stepEvent s0 (.hover k)).traces.length = s0.traces.length := by
    simp [stepEvent, hoverStep, hop, applyRestyle_length]
  have hrun := runEvents_preserves (captureOpacities s0.traces)
    (captureLineWidths s0.traces) s0.traces.length
    (captureOpacities_length s0.traces) (captureLineWidths_length s0.traces)
    evs _ hstep.1 hstep.2.1 hstep.2.2
  rw [hrun0]
  constructor
  · show (List.range (runEvents (stepEvent s0 (.hover k)) evs).traces.length).map
      (fun i => jsOr (runEvents (stepEvent s0 (.hover k)) evs).originalOpacities[i]? 1.0) = _
    rw [hrun.1, hrun.2.2, ← captureOpacities_length s0.traces]
    exact restore_map _ 1.0 (captureOpacities_ne_zero s0.traces)
  · show (List.range (runEvents (stepEvent s0 (.hover k)) evs).traces.length).map
      (fun i => jsOr (runEvents (stepEvent s0 (.hover k)) evs).originalLineWidths[i]? 2) = _
    rw [hrun.2.1, hrun.2.2, ← captureLineWidths_length s0.traces]
    exact restore_map _ 2 (captureLineWidths_ne_zero s0.traces)

/-- Witness for the amended C2: a hover/unhover/hover cycle on the three-trace
chart followed by the final unhover restores the captured snapshot. -/
theorem unhover_restores_snapshot_witness :
    threeTraceState.originalOpacities = [] ∧
    threeTraceState.originalLineWidths = [] ∧
    ((unhoverStep (runEvents threeTraceState
        [.hover 1, .unhover, .hover 2])).2.opacity =
      captureOpacities threeTraceState.traces ∧
    (unhoverStep (runEvents threeTraceState
        [.hover 1, .unhover, .hover 2])).2.lineWidth =
      captureLineWidths threeTraceState.traces) :=
  ⟨rfl, rfl, unhover_restores_snapshot threeTraceState rfl rfl 1 [.unhover, .hover 2]⟩

/-- Claim C7: the snapshot is captured at most once — from any state with a
non-empty snapshot, no event recomputes or overwrites it (whatever the
current trace list is), and the first hover on a chart with at least one
trace moves the controller from Unprimed (empty snapshot) to Primed
(non-empty snapshot). -/
theorem snapshot_primed_once (s : HighlightState) :
    (s.originalOpacities ≠ [] →
      ∀ e, (stepEvent s e).originalOpacities = s.originalOpacities ∧
        (stepEvent s e).originalLineWidths = s.originalLineWidths) ∧
    (s.originalOpacities = [] → s.traces ≠ [] →
      ∀ k, (hoverStep s k).1.originalOpacities ≠ []) := by
  constructor
  · intro hne e
    cases e with
    | hover k =>
      have hlen : ¬ s.originalOpacities.length = 0 := by
        simpa [List.length_eq_zero] using hne
      simp [stepEvent, hoverStep, hlen]
    | unhover => simp [stepEvent, unhoverStep]
  · intro hemp hts k
    simp only [hoverStep, hemp, List.length_nil, if_pos rfl]
    simpa [captureOpacities] using hts

/-! ### Claim about `setupHighlight` on a missing target -/

/-- Claim C6: when the surface identifier resolves to nothing, setup logs
exactly the warning, subscribes no events, and returns normally. -/
theorem setup_missing_target (dom : String → Option HighlightState)
    (plotId : String) (h : dom plotId = none) :
    setupHighlight dom plotId =
      { warnings := ["Plot element not found: " ++ plotId],
        subscribedEvents := [] } := by
  simp [setupHighlight, h]

/-- Witness for C6 on an empty document. -/
theorem setup_missing_target_witness :
    ((fun _ : String => (none : Option HighlightState)) "missing" = none) ∧
    setupHighlight (fun _ => none) "missing" =
      { warnings := ["Plot element not found: " ++ "missing"],
        subscribedEvents := [] } :=
  ⟨rfl, setup_missing_target (fun _ => none) "missing" rfl⟩

/-! ### Claims about the Chart Factory -/

/-- Claim C8: `createTeamLineChart` builds exactly one trace per team record,
in order, and each hover label template contains the team name and the
one-decimal y format directive. -/
theorem createTraces_per_team (data : ChartData) :
    (createTraces data).length = data.teams.length ∧
    ∀ (i : ℕ) (team : Team), data.teams[i]? = some team →
      ∃ t : TraceSpec, (createTraces data)[i]? = some t ∧
        t.name = team.name ∧
        (∃ pre post, t.hovertemplate = pre ++ team.name ++ post) ∧
        (∃ pre post, t.hovertemplate = pre ++ "%\x7by:.1f\x7d" ++ post) := by
  refine ⟨by simp [createTraces], ?_⟩
  intro i team hteam
  refine ⟨mkTeamTrace data team, ?_, rfl, ?_, ?_⟩
  · simp [createTraces, List.getElem?_map, hteam]
  · refine ⟨"<b>", "</b><br>" ++ data.xLabel ++ ": %\x7bx\x7d<br>"
      ++ data.yLabel ++ ": %\x7by:.1f\x7d<extra></extra>", ?_⟩
    simp [mkTeamTrace, String.append_assoc]
  · refine ⟨"<b>" ++ team.name ++ "</b><br>" ++ data.xLabel ++ ": %\x7bx\x7d<br>"
      ++ data.yLabel ++ ": ", "<extra></extra>", ?_⟩
    have hsplit : (": %\x7by:.1f\x7d<extra></extra>" : String) =
        ": " ++ "%\x7by:.1f\x7d" ++ "<extra></extra>" := rfl
    simp [mkTeamTrace, hsplit, String.append_assoc]

/-- Witness for C8 on the one-team sample data. -/
theorem createTraces_per_team_witness :
    (createTraces sampleChartData).length = sampleChartData.teams.length ∧
    ∀ (i : ℕ) (team : Team), sampleChartData.teams[i]? = some team →
      ∃ t : TraceSpec, (createTraces sampleChartData)[i]? = some t ∧
        t.name = team.name ∧
        (∃ pre post, t.hovertemplate = pre ++ team.name ++ post) ∧
        (∃ pre post, t.hovertemplate = pre ++ "%\x7by:.1f\x7d" ++ post) :=
  createTraces_per_team sampleChartData

theorem lookup_setKey (o : JsObject) (k : String) (v : JsValue) (k' : String) :
    List.lookup k' (setKey o k v) =
      if k' = k then some v else List.lookup k' o := by
  induction o with
  | nil =>
    by_cases h : k' = k
    · have hb : (k' == k) = true := beq_iff_eq.mpr h
      simp [setKey, List.lookup, hb, h]
    · have hb : (k' == k) = false := beq_eq_false_iff_ne.mpr h
      simp [setKey, List.lookup, hb, h]
  | cons kv o ih =>
    obtain ⟨k0, v0⟩ := kv
    by_cases h0 : k0 = k
    · subst h0
      by_cases h' : k' = k0
      · have hb : (k' == k0) = true := beq_iff_eq.mpr h'
        simp [setKey, List.lookup, hb, h']
      · have hb : (k' == k0) = false := beq_eq_false_iff_ne.mpr h'
        simp [setKey, List.lookup, hb, h']
    · by_cases h' : k' = k0
      · have hb : (k' == k0) = true := beq_iff_eq.mpr h'
        have hne : ¬ k' = k := fun hc => h0 ((h'.symm.trans hc))
        simp [setKey, List.lookup, if_neg h0, hb, hne]
      · have hb : (k' == k0) = false := beq_eq_false_iff_ne.mpr h'
        simp [setKey, List.lookup, if_neg h0, hb, ih]

theorem lookup_none_of_not_mem_keys (s : JsObject) (k : String)
    (h : k ∉ s.map Prod.fst) : List.lookup k s = none := by
  induction s with
  | nil => rfl
  | cons kv s ih =>
    obtain ⟨k0, v0⟩ := kv
    simp only [List.map_cons, List.mem_cons] at h
    push_neg at h
    have hb : (k == k0) = false := beq_eq_false_iff_ne.mpr h.1
    simp [List.lookup, hb, ih h.2]

theorem lookup_isSome_of_mem_keys (s : JsObject) (k : String)
    (h : k ∈ s.map Prod.fst) : ∃ v, List.lookup k s = some v := by
  induction s with
  | nil => simp at h
  | cons kv s ih =>
    obtain ⟨k0, v0⟩ := kv
    by_cases hk : k = k0
    · have hb : (k == k0) = true := beq_iff_eq.mpr hk
      exact ⟨v0, by simp [List.lookup, hb]⟩
    · simp only [List.map_cons, List.mem_cons] at h
      obtain ⟨v, hv⟩ := ih (h.resolve_left hk)
      have hb : (k == k0) = false := beq_eq_false_iff_ne.mpr hk
      exact ⟨v, by simp [List.lookup, hb, hv]⟩

/-- Own-key lookup through `Object.assign(target, src)`: a key of `src` wins,
any other key falls through to `target`. -/
theorem lookup_objAssign (t s : JsObject) (hs : (s.map Prod.fst).Nodup)
    (k : String) :
    List.lookup k (objAssign t s) =
      match List.lookup k s with
      | some v => some v
      | none => List.lookup k t := by
  induction s generalizing t with
  | nil => rfl
  | cons kv s ih =>
    obtain ⟨k0, v0⟩ := kv
    have hs' : (k0 :: s.map Prod.fst).Nodup := by simpa using hs
    have hnd : (s.map Prod.fst).Nodup := (List.nodup_cons.mp hs').2
    have hk0 : k0 ∉ s.map Prod.fst := (List.nodup_cons.mp hs').1
    have hfold : objAssign t ((k0, v0) :: s) = objAssign (setKey t k0 v0) s := rfl
    rw [hfold, ih (setKey t k0 v0) hnd]
    by_cases hk : k = k0
    · subst hk
      rw [lookup_none_of_not_mem_keys s k hk0]
      have hb : (k == k) = true := beq_iff_eq.mpr rfl
      simp [List.lookup, hb, lookup_setKey]
    · have hb : (k == k0) = false := beq_eq_false_iff_ne.mpr hk
      simp [List.lookup, hb, lookup_setKey, hk]

/-- Claim C9: the layout passed to the render call is the shallow merge of
`layoutOverrides` over `defaultLayout` — each top-level key present in the
overrides keeps exactly the override value (replacing any nested default
wholesale), and every other top-level key keeps exactly the default value. -/
theorem layout_shallow_merge (plotId : String) (data : ChartData)
    (overrides : JsObject) (hnd : (overrides.map Prod.fst).Nodup) (k : String) :
    (k ∈ overrides.map Prod.fst →
      objGet (createTeamLineChart plotId data overrides).layout k =
        List.lookup k overrides) ∧
    (k ∉ overrides.map Prod.fst →
      objGet (createTeamLineChart plotId data overrides).layout k =
        objGet defaultLayout k) := by
  have hdl : (defaultLayout.map Prod.fst).Nodup := by
    simp [defaultLayout]
  have hlay : (createTeamLineChart plotId data overrides).layout =
      objAssign (objAssign [] defaultLayout) overrides := rfl
  constructor
  · intro hmem
    obtain ⟨v, hv⟩ := lookup_isSome_of_mem_keys overrides k hmem
    rw [objGet, hlay, lookup_objAssign _ overrides hnd k, hv]
  · intro hmem
    rw [objGet, hlay, lookup_objAssign _ overrides hnd k,
      lookup_none_of_not_mem_keys overrides k hmem,
      lookup_objAssign [] defaultLayout hdl k]
    rcases hlook : List.lookup k defaultLayout with _ | v
    · simp [objGet, hlook]
    · simp [objGet, hlook]

/-- Witness for C9: overriding the `margin` key replaces the whole nested
default margin object, while `font` keeps its default. -/
theorem layout_shallow_merge_witness :
    (([("margin", JsValue.obj [("t", JsValue.num 0)])].map Prod.fst).Nodup ∧
      ("margin" ∈ [("margin", JsValue.obj [("t", JsValue.num 0)])].map Prod.fst →
        objGet (createTeamLineChart "standings" sampleChartData
            [("margin", JsValue.obj [("t", JsValue.num 0)])]).layout "margin" =
          List.lookup "margin" [("margin", JsValue.obj [("t", JsValue.num 0)])]) ∧
      ("margin" ∉ [("margin", JsValue.obj [("t", JsValue.num 0)])].map Prod.fst →
        objGet (createTeamLineChart "standings" sampleChartData
            [("margin", JsValue.obj [("t", JsValue.num 0)])]).layout "margin" =
          objGet defaultLayout "margin")) ∧
    ("font" ∉ [("margin", JsValue.obj [("t", JsValue.num 0)])].map Prod.fst →
      objGet (createTeamLineChart "standings" sampleChartData
          [("margin", JsValue.obj [("t", JsValue.num 0)])]).layout "font" =
        objGet defaultLayout "font") :=
  ⟨⟨by simp,
    layout_shallow_merge "standings" sampleChartData
      [("margin", JsValue.obj [("t", JsValue.num 0)])] (by simp) "margin"⟩,
   (layout_shallow_merge "standings" sampleChartData
      [("margin", JsValue.obj [("t", JsValue.num 0)])] (by simp) "font").2⟩
